import Mathlib

/-!
Shallow embedding of the sessionup-boltstore session store
(module `github.com/jellydator/sessionup-boltstore`, package `boltstore`,
source file `store.go`), a bolt/storm-backed implementation of the
sessionup.Store interface.

Modelling notes:
  - `time.Time` values are modelled as integer instants (`Instant := Int`);
    comparison of timestamps is comparison of instants.
  - The storm bucket is modelled as a `Table := List Record`, the records in
    storage order.  `db.One`, `db.Find` and query-based `Delete` are modelled
    as the pure table operations `one`, `find` and `selectDelete` below,
    mirroring storm's behaviour: `One`/`Find` return `ErrNotFound` when no
    record matches, and a query's `Delete` returns `ErrNotFound` when it
    deleted nothing.
  - Engine (I/O) failures cannot arise in the pure model; the error type
    `StormErr` nevertheless keeps an `other` constructor so that the
    error-normalisation helper `detectErr` and the error-propagation path of
    `FetchByID` can be stated exactly as in the code.
  - `sessionup.Session` is modelled with the fields the store touches:
    `Current`, `CreatedAt`, `ExpiresAt`, `ID`, `UserKey`, `IP`, `Agent`.
  - The background cleanup goroutine started by `New` (only when
    `cleanupInterval != 0`) is modelled by `sweeperRun`: the ticker fires at
    instants `interval, 2*interval, ...` up to the elapsed time, and each
    firing runs one `cleanup` pass.
-/

namespace Boltstore

/-- Point in time, by instant. -/
abbrev Instant := Int

/-- User-Agent data stored with a session (`Agent` sub-struct of both
`sessionup.Session` and `record`). -/
structure Agent where
  os : String
  browser : String
deriving DecidableEq, Repr

/-- The external `sessionup.Session` entity (the fields the store touches). -/
structure Session where
  current : Bool
  createdAt : Instant
  expiresAt : Instant
  id : String
  userKey : String
  ip : List Nat
  agent : Agent
deriving DecidableEq, Repr

/-- The persisted `record` struct of store.go: note it has NO `Current`
field — only `ID`, `CreatedAt`, `ExpiresAt`, `UserKey`, `IP`, `Agent`. -/
structure Record where
  id : String
  createdAt : Instant
  expiresAt : Instant
  userKey : String
  ip : List Nat
  agent : Agent
deriving DecidableEq, Repr

/-- The Go zero value of `record` (what `var r record` starts as). -/
def zeroRecord : Record := ⟨"", 0, 0, "", [], ⟨"", ""⟩⟩

/-- The Go zero value of `sessionup.Session` (what `sessionup.Session{}` is). -/
def zeroSession : Session := ⟨false, 0, 0, "", "", [], ⟨"", ""⟩⟩

/-- Errors surfaced by the storm engine: `storm.ErrNotFound`, or any other
engine failure carried verbatim. -/
inductive StormErr where
  | notFound
  | other (msg : String)
deriving DecidableEq, Repr

/-- detectErr of store.go: normalises `storm.ErrNotFound` to no error and
passes every other error through untouched. -/
def detectErr : Option StormErr → Option StormErr
  | some .notFound => none
  | e => e

/-- The storm bucket holding the records, in storage order. -/
abbrev Table := List Record

/-- newRecord of store.go: copies `CreatedAt`, `ExpiresAt`, `ID`, `UserKey`,
`IP` and the `Agent` fields of the session into a fresh record.  The
session's `Current` flag has no counterpart in `record` and is dropped. -/
def newRecord (s : Session) : Record :=
  ⟨s.id, s.createdAt, s.expiresAt, s.userKey, s.ip, ⟨s.agent.os, s.agent.browser⟩⟩

/-- extractSession of store.go: rebuilds a `sessionup.Session` from a record.
`Current` is never assigned, so it keeps the zero value `false`. -/
def Record.extractSession (r : Record) : Session :=
  ⟨false, r.createdAt, r.expiresAt, r.id, r.userKey, r.ip, ⟨r.agent.os, r.agent.browser⟩⟩

/-- Model of `db.One("ID", id, &r)`: the first record whose `ID` equals `id`,
or `ErrNotFound` leaving the receiver at its zero value. -/
def one (tbl : Table) (id : String) : Record × Option StormErr :=
  match tbl.find? (fun r => r.id == id) with
  | some r => (r, none)
  | none => (zeroRecord, some .notFound)

/-- Model of `db.Find("UserKey", key, &rr)`: all records whose `UserKey`
equals `key`, in storage order, or `ErrNotFound` when none match. -/
def find (tbl : Table) (key : String) : List Record × Option StormErr :=
  let rr := tbl.filter (fun r => r.userKey == key)
  if rr.isEmpty then ([], some .notFound) else (rr, none)

/-- Model of `db.Select(matcher).Delete(&record{})`: removes every record
matched by the predicate and returns `ErrNotFound` when nothing matched. -/
def selectDelete (tbl : Table) (p : Record → Bool) : Table × Option StormErr :=
  (tbl.filter (fun r => !(p r)), if tbl.any p then none else some .notFound)

/-- Errors Create can return: the `sessionup.ErrDuplicateID` sentinel, or an
engine error passed through. -/
inductive CreateErr where
  | duplicateID
  | engine (e : StormErr)
deriving DecidableEq, Repr

/-- Create of store.go: looks the ID up with `One` (a not-found lookup leaves
the zero record), fails with the duplicate-ID sentinel when the looked-up
record's ID equals the session's ID, and otherwise saves the encoded
record. -/
def Create (tbl : Table) (s : Session) : Option CreateErr × Table :=
  let res := one tbl s.id
  match detectErr res.2 with
  | some e => (some (.engine e), tbl)
  | none =>
    if res.1.id == s.id then (some .duplicateID, tbl)
    else (none, tbl ++ [newRecord s])

/-- Result assembly of FetchByID of store.go, from the outcome of the `One`
lookup: on error return the zero session, `false` and `detectErr err`;
on success decode the record and return it with `true`. -/
def FetchByIDRes (res : Record × Option StormErr) : Session × Bool × Option StormErr :=
  match res.2 with
  | some e => (zeroSession, false, detectErr (some e))
  | none => (res.1.extractSession, true, none)

/-- FetchByID of store.go. -/
def FetchByID (tbl : Table) (id : String) : Session × Bool × Option StormErr :=
  FetchByIDRes (one tbl id)

/-- FetchByUserKey of store.go: on a `Find` error return a nil slice and
`detectErr err` (so no-match gives `nil, nil`); otherwise decode every found
record in order.  A nil slice is `none`, a non-nil slice is `some`. -/
def FetchByUserKey (tbl : Table) (key : String) : Option (List Session) × Option StormErr :=
  match find tbl key with
  | (_, some e) => (none, detectErr (some e))
  | (rr, none) => (some (rr.map Record.extractSession), none)

/-- DeleteByUserKey of store.go: one query-scoped delete of every record
whose `UserKey` equals `key` and whose `ID` is not in `expIDs`, with the
result error normalised by `detectErr`. -/
def DeleteByUserKey (tbl : Table) (key : String) (expIDs : List String) :
    Table × Option StormErr :=
  let res := selectDelete tbl (fun r => r.userKey == key && !(expIDs.contains r.id))
  (res.1, detectErr res.2)

/-- cleanup of store.go: one query-scoped delete of every record whose
`ExpiresAt` is less than or equal to now (`q.Lte("ExpiresAt", time.Now())`),
with the result error normalised by `detectErr`. -/
def cleanup (now : Instant) (tbl : Table) : Table × Option StormErr :=
  let res := selectDelete tbl (fun r => decide (r.expiresAt ≤ now))
  (res.1, detectErr res.2)

/-- Construction errors of New: `ErrInvalidBucket` and `ErrInvalidInterval`. -/
inductive NewErr where
  | invalidBucket
  | invalidInterval
deriving DecidableEq, Repr

/-- The BoltStore configuration state New establishes (the storm node bound
to the bucket, plus the cleanup interval governing the sweeper). -/
structure BoltStore where
  bucket : String
  cleanupInterval : Int
deriving DecidableEq, Repr

/-- New of store.go: rejects an empty bucket name with `ErrInvalidBucket`
and a negative interval with `ErrInvalidInterval`, each before any state is
created; otherwise returns the store. -/
def New (bucket : String) (cleanupInterval : Int) : Except NewErr BoltStore :=
  if bucket == "" then .error .invalidBucket
  else if cleanupInterval < 0 then .error .invalidInterval
  else .ok ⟨bucket, cleanupInterval⟩

/-- New starts the cleanup goroutine only under `if cleanupInterval != 0`. -/
def sweeperStarted (b : BoltStore) : Bool := b.cleanupInterval != 0

/-- Instants at which a `time.NewTicker(interval)` has fired once `elapsed`
time has passed: `interval, 2*interval, ...`. -/
def tickTimes (interval elapsed : Int) : List Instant :=
  (List.range (elapsed / interval).toNat).map (fun k => ((k : Int) + 1) * interval)

/-- Everything the background cleanup process has done to the table after
`elapsed` time: nothing at all when the goroutine was never started
(`cleanupInterval = 0`), otherwise one `cleanup` pass per ticker firing. -/
def sweeperRun (b : BoltStore) (elapsed : Int) (tbl : Table) : Table :=
  if sweeperStarted b then
    (tickTimes b.cleanupInterval elapsed).foldl (fun t now => (cleanup now t).1) tbl
  else tbl

/-! Concrete data used by the witnesses and the counterexample. -/

/-- Sample session with the `Current` flag set. -/
def sCur : Session := ⟨true, 1, 2, "id1", "u1", [127, 0, 0, 1], ⟨"linux", "firefox"⟩⟩

/-- Sample record A with user key k1. -/
def recA : Record := ⟨"A", 0, 10, "k1", [], ⟨"o", "b"⟩⟩

/-- Sample record B with user key k1. -/
def recB : Record := ⟨"B", 0, 10, "k1", [], ⟨"o", "b"⟩⟩

/-- Sample record C with user key k1. -/
def recC : Record := ⟨"C", 0, 10, "k1", [], ⟨"o", "b"⟩⟩

/-- Sample record D with user key k2. -/
def recD : Record := ⟨"D", 0, 10, "k2", [], ⟨"o", "b"⟩⟩

/-- Sample table with three k1 records and one k2 record. -/
def exTbl : Table := [recA, recB, recC, recD]

/-- Sample record that expired at instant 5. -/
def recExp : Record := ⟨"E", 0, 5, "k3", [], ⟨"o", "b"⟩⟩

/-- Sample session whose ID collides with record A. -/
def sessA : Session := ⟨false, 3, 20, "A", "k9", [], ⟨"x", "y"⟩⟩

/-- Sample session with an empty ID. -/
def sessEmpty : Session := ⟨false, 3, 20, "", "k9", [], ⟨"x", "y"⟩⟩

/-! Theorems. -/

/-- C2 counterexample: the codec does not round-trip the `Current` flag.
For the session `sCur` (whose `Current` is true) decoding the encoded record
yields a session different from `sCur`, because `record` has no `Current`
field and `extractSession` leaves `Current` at its zero value `false`. -/
theorem roundTrip_cex :
    (newRecord sCur).extractSession ≠ sCur ∧ sCur.current = true := by
  decide

/-- C2 (amended): for every session `s`, decoding the encoded record yields
`s` on the fields `CreatedAt`, `ExpiresAt`, `ID`, `UserKey`, `IP`,
`Agent.OS` and `Agent.Browser` (instants compared as instants), while the
`Current` flag is not persisted and always decodes to `false`. -/
theorem roundTrip_amended (s : Session) :
    (newRecord s).extractSession.createdAt = s.createdAt ∧
    (newRecord s).extractSession.expiresAt = s.expiresAt ∧
    (newRecord s).extractSession.id = s.id ∧
    (newRecord s).extractSession.userKey = s.userKey ∧
    (newRecord s).extractSession.ip = s.ip ∧
    (newRecord s).extractSession.agent.os = s.agent.os ∧
    (newRecord s).extractSession.agent.browser = s.agent.browser ∧
    (newRecord s).extractSession.current = false := by
  simp [newRecord, Record.extractSession]

/-- C8: New rejects every empty bucket name with the invalid-bucket error
and, for a non-empty bucket, every strictly negative interval with the
invalid-interval error; in both cases it returns the error immediately with
no store. -/
theorem New_validation (bucket : String) (interval : Int) :
    (bucket = "" → New bucket interval = .error .invalidBucket) ∧
    (bucket ≠ "" → interval < 0 → New bucket interval = .error .invalidInterval) := by
  constructor
  · intro h
    simp [New, h]
  · intro h1 h2
    simp [New, h1, h2]

/-- Witness for C8 at the concrete inputs bucket = "" and interval = -1. -/
theorem New_validation_witness :
    New "" 5 = .error .invalidBucket ∧ New "b" (-1) = .error .invalidInterval :=
  ⟨(New_validation "" 5).1 rfl, (New_validation "b" (-1)).2 (by decide) (by decide)⟩

/-- C4: when the store is constructed with cleanup interval zero the cleanup
goroutine is never started, so for every elapsed time and every table the
background cleanup process deletes nothing: the table is unchanged. -/
theorem sweeper_disabled (bucket : String) (store : BoltStore)
    (h : New bucket 0 = .ok store) :
    ∀ (elapsed : Int) (tbl : Table), sweeperRun store elapsed tbl = tbl := by
  intro elapsed tbl
  have hs : store.cleanupInterval = 0 := by
    by_cases hb : bucket = ""
    · simp [New, hb] at h
    · simp [New, hb] at h
      rw [← h]
  simp [sweeperRun, sweeperStarted, hs]

/-- Witness for C4: interval zero, 1000 time units elapsed, one record. -/
theorem sweeper_disabled_witness :
    sweeperRun ⟨"b", 0⟩ 1000 [recA] = [recA] :=
  sweeper_disabled "b" ⟨"b", 0⟩ rfl 1000 [recA]

/-- C3: on a table containing exactly one record with the session's ID,
Create returns the `ErrDuplicateID` sentinel, leaves the table completely
unchanged, and the table afterwards still holds exactly one record with
that ID. -/
theorem Create_duplicate (tbl : Table) (s : Session)
    (h : tbl.countP (fun r => r.id == s.id) = 1) :
    (Create tbl s).1 = some .duplicateID ∧ (Create tbl s).2 = tbl ∧
    (Create tbl s).2.countP (fun r => r.id == s.id) = 1 := by
  have hpos : ∃ a ∈ tbl, (fun r => r.id == s.id) a := by
    rw [← List.countP_pos_iff]
    omega
  have hfind : ∃ r, tbl.find? (fun r => r.id == s.id) = some r := by
    cases hf : tbl.find? (fun r => r.id == s.id) with
    | some r => exact ⟨r, rfl⟩
    | none =>
      rw [List.find?_eq_none] at hf
      obtain ⟨a, ha, hpa⟩ := hpos
      exact absurd hpa (hf a ha)
  obtain ⟨r, hr⟩ := hfind
  have hrid := List.find?_some hr
  simp only [] at hrid
  refine ⟨?_, ?_, ?_⟩
  · simp [Create, one, hr, detectErr, hrid]
  · simp [Create, one, hr, detectErr, hrid]
  · simp [Create, one, hr, detectErr, hrid, h]

/-- Witness for C3: `exTbl` holds exactly one record with ID "A" and
`sessA` reuses that ID. -/
theorem Create_duplicate_witness :
    (Create exTbl sessA).1 = some .duplicateID ∧ (Create exTbl sessA).2 = exTbl ∧
    (Create exTbl sessA).2.countP (fun r => r.id == sessA.id) = 1 :=
  Create_duplicate exTbl sessA (by decide)

/-- C9: on a table containing no record with the empty ID, Create of a
session whose ID is the empty string still returns the duplicate-ID
sentinel and inserts nothing, because the zero record left by the not-found
lookup has ID "" which compares equal to the session's ID. -/
theorem Create_emptyID (tbl : Table) (s : Session)
    (h1 : ∀ r ∈ tbl, r.id ≠ "") (h2 : s.id = "") :
    (Create tbl s).1 = some .duplicateID ∧ (Create tbl s).2 = tbl := by
  have hf : tbl.find? (fun r => r.id == "") = none := by
    rw [List.find?_eq_none]
    intro x hx
    simpa using h1 x hx
  constructor <;> simp [Create, one, h2, hf, detectErr, zeroRecord]

/-- Witness for C9: `exTbl` has no empty-ID record and `sessEmpty` has the
empty ID. -/
theorem Create_emptyID_witness :
    (Create exTbl sessEmpty).1 = some .duplicateID ∧
    (Create exTbl sessEmpty).2 = exTbl :=
  Create_emptyID exTbl sessEmpty (by decide) rfl

/-- C1: one cleanup pass at instant `now` succeeds and deletes exactly the
records whose `ExpiresAt` is at or before `now`: a record is in the table
afterwards iff it was there before and its `ExpiresAt` is after `now`, and
the surviving records keep their order and content (sublist of the old
table). -/
theorem cleanup_spec (now : Instant) (tbl : Table) :
    (∀ r, r ∈ (cleanup now tbl).1 ↔ r ∈ tbl ∧ now < r.expiresAt) ∧
    (cleanup now tbl).1.Sublist tbl ∧
    (cleanup now tbl).2 = none := by
  refine ⟨?_, ?_, ?_⟩
  · intro r
    simp [cleanup, selectDelete, List.mem_filter, not_le]
  · simp only [cleanup, selectDelete]
    exact List.filter_sublist tbl
  · cases h : tbl.any (fun r => decide (r.expiresAt ≤ now)) <;>
      simp [cleanup, selectDelete, h, detectErr]

/-- Witness for C1 at the boundary: with now = 5, the record expiring
exactly at 5 is deleted and the record expiring at 10 survives. -/
theorem cleanup_spec_witness :
    recExp ∉ (cleanup 5 [recExp, recA]).1 ∧ recA ∈ (cleanup 5 [recExp, recA]).1 := by
  constructor
  · intro hmem
    have hc := ((cleanup_spec 5 [recExp, recA]).1 recExp).mp hmem
    revert hc
    decide
  · exact ((cleanup_spec 5 [recExp, recA]).1 recA).mpr (by decide)

/-- C5: DeleteByUserKey succeeds (no error, a no-match delete being
normalised to success), a record is in the table afterwards iff it was
there before and is not a match (UserKey equal to the key and ID outside
the exclusion list), the surviving records keep their order and content,
and when nothing matches the table is left exactly as it was. -/
theorem DeleteByUserKey_spec (tbl : Table) (key : String) (expIDs : List String) :
    (DeleteByUserKey tbl key expIDs).2 = none ∧
    (∀ r, r ∈ (DeleteByUserKey tbl key expIDs).1 ↔
      r ∈ tbl ∧ ¬(r.userKey = key ∧ r.id ∉ expIDs)) ∧
    (DeleteByUserKey tbl key expIDs).1.Sublist tbl ∧
    ((∀ r ∈ tbl, ¬(r.userKey = key ∧ r.id ∉ expIDs)) →
      (DeleteByUserKey tbl key expIDs).1 = tbl) := by
  have hb : ∀ x : Record, ((x.userKey == key && !(expIDs.contains x.id)) = true) ↔
      (x.userKey = key ∧ x.id ∉ expIDs) := by
    intro x
    simp [List.elem_iff]
  refine ⟨?_, ?_, ?_, ?_⟩
  · simp only [DeleteByUserKey, selectDelete]
    split
    · rfl
    · rfl
  · intro r
    simp only [DeleteByUserKey, selectDelete, List.mem_filter]
    cases hp : (r.userKey == key && !(expIDs.contains r.id)) with
    | false =>
      have hnm : ¬(r.userKey = key ∧ r.id ∉ expIDs) := by
        intro hc
        rw [← hb r] at hc
        rw [hp] at hc
        cases hc
      simp only [hp, Bool.not_false]
      tauto
    | true =>
      have hm : r.userKey = key ∧ r.id ∉ expIDs := (hb r).mp hp
      simp only [hp, Bool.not_true]
      constructor
      · rintro ⟨_, hc⟩
        cases hc
      · rintro ⟨_, hc⟩
        exact absurd hm hc
  · simp only [DeleteByUserKey, selectDelete]
    exact List.filter_sublist tbl
  · intro hnone
    simp only [DeleteByUserKey, selectDelete]
    rw [List.filter_eq_self]
    intro a ha
    cases hp : (a.userKey == key && !(expIDs.contains a.id)) with
    | true => exact absurd ((hb a).mp hp) (hnone a ha)
    | false => rfl

/-- Witness for C5 on the spec's example table {A,B,C with key k1; D with
key k2}, excluding A: A survives (excluded), B is deleted, D survives. -/
theorem DeleteByUserKey_spec_witness :
    recA ∈ (DeleteByUserKey exTbl "k1" ["A"]).1 ∧
    recD ∈ (DeleteByUserKey exTbl "k1" ["A"]).1 ∧
    recB ∉ (DeleteByUserKey exTbl "k1" ["A"]).1 := by
  refine ⟨?_, ?_, ?_⟩
  · exact ((DeleteByUserKey_spec exTbl "k1" ["A"]).2.1 recA).mpr (by decide)
  · exact ((DeleteByUserKey_spec exTbl "k1" ["A"]).2.1 recD).mpr (by decide)
  · intro hmem
    have hc := ((DeleteByUserKey_spec exTbl "k1" ["A"]).2.1 recB).mp hmem
    revert hc
    decide

/-- C6: FetchByUserKey returns a nil slice (and no error) exactly when no
record has the given user key, and whenever it returns a non-nil slice that
slice is precisely the matching records decoded in storage order; the error
component is always nil (a no-match lookup being normalised to success). -/
theorem FetchByUserKey_spec (tbl : Table) (key : String) :
    ((FetchByUserKey tbl key).1 = none ↔ ∀ r ∈ tbl, r.userKey ≠ key) ∧
    (∀ ss, (FetchByUserKey tbl key).1 = some ss →
      ss = (tbl.filter (fun r => r.userKey == key)).map Record.extractSession) ∧
    (FetchByUserKey tbl key).2 = none := by
  cases hE : (tbl.filter (fun r => r.userKey == key)).isEmpty with
  | true =>
    have hnil : tbl.filter (fun r => r.userKey == key) = [] := List.isEmpty_iff.mp hE
    have hF : FetchByUserKey tbl key = (none, none) := by
      simp [FetchByUserKey, find, hE, detectErr]
    rw [hF]
    refine ⟨?_, ?_, rfl⟩
    · constructor
      · intro _ r hr hk
        have hmem : r ∈ tbl.filter (fun x => x.userKey == key) :=
          List.mem_filter.mpr ⟨hr, by simp [hk]⟩
        rw [hnil] at hmem
        cases hmem
      · intro _
        rfl
    · intro ss hss
      simp at hss
  | false =>
    have hne : tbl.filter (fun r => r.userKey == key) ≠ [] := by
      intro hc
      rw [hc] at hE
      simp at hE
    have hF : FetchByUserKey tbl key =
        (some ((tbl.filter (fun r => r.userKey == key)).map Record.extractSession), none) := by
      simp [FetchByUserKey, find, hE]
    rw [hF]
    refine ⟨?_, ?_, rfl⟩
    · constructor
      · intro hc
        simp at hc
      · intro hall
        exfalso
        obtain ⟨a, ha⟩ := List.exists_mem_of_ne_nil _ hne
        rw [List.mem_filter] at ha
        exact hall a ha.1 (by simpa using ha.2)
    · intro ss hss
      simpa using hss.symm

/-- Witness for C6: no k9 record exists in `exTbl` so the slice is nil, and
the single k2 record comes back decoded. -/
theorem FetchByUserKey_spec_witness :
    (FetchByUserKey exTbl "k9").1 = none ∧
    [recD.extractSession] =
      (exTbl.filter (fun r => r.userKey == "k2")).map Record.extractSession := by
  refine ⟨((FetchByUserKey_spec exTbl "k9").1).mpr (by decide), ?_⟩
  exact (FetchByUserKey_spec exTbl "k2").2.1 [recD.extractSession] (by decide)

/-- C7: FetchByID returns the zero session, false and no error when no
record carries the ID; returns the decoded record, true and no error when
one does; and an unexpected engine error coming back from the lookup is
propagated verbatim (not normalised) alongside the zero session and
false. -/
theorem FetchByID_spec (tbl : Table) (id : String) :
    ((∀ r ∈ tbl, r.id ≠ id) → FetchByID tbl id = (zeroSession, false, none)) ∧
    (∀ r, tbl.find? (fun x => x.id == id) = some r →
      FetchByID tbl id = (r.extractSession, true, none)) ∧
    (∀ e, FetchByIDRes (zeroRecord, some (.other e)) =
      (zeroSession, false, some (.other e))) := by
  refine ⟨?_, ?_, fun e => rfl⟩
  · intro h
    have hf : tbl.find? (fun x => x.id == id) = none := by
      rw [List.find?_eq_none]
      intro x hx
      simpa using h x hx
    simp [FetchByID, one, hf, FetchByIDRes, detectErr]
  · intro r hr
    simp [FetchByID, one, hr, FetchByIDRes]

/-- Witness for C7: ID "nope" is absent from `exTbl`, ID "A" is present. -/
theorem FetchByID_spec_witness :
    FetchByID exTbl "nope" = (zeroSession, false, none) ∧
    FetchByID exTbl "A" = (recA.extractSession, true, none) :=
  ⟨(FetchByID_spec exTbl "nope").1 (by decide),
   (FetchByID_spec exTbl "A").2.1 recA (by decide)⟩

/-- C10: reads do not filter by expiry: a record present in the table whose
`ExpiresAt` is at or before `now` is still returned by FetchByID with
found = true and still appears decoded in the FetchByUserKey result for its
user key, exactly like an unexpired record. -/
theorem expiredVisible (tbl : Table) (r : Record) (now : Instant)
    (hfind : tbl.find? (fun x => x.id == r.id) = some r)
    (hexp : r.expiresAt ≤ now) :
    FetchByID tbl r.id = (r.extractSession, true, none) ∧
    ∃ ss, (FetchByUserKey tbl r.userKey).1 = some ss ∧ r.extractSession ∈ ss := by
  constructor
  · simp [FetchByID, one, hfind, FetchByIDRes]
  · have hmem : r ∈ tbl := List.mem_of_find?_eq_some hfind
    have hmemf : r ∈ tbl.filter (fun x => x.userKey == r.userKey) := by
      rw [List.mem_filter]
      exact ⟨hmem, by simp⟩
    have hne : (tbl.filter (fun x => x.userKey == r.userKey)).isEmpty = false := by
      cases h : (tbl.filter (fun x => x.userKey == r.userKey)).isEmpty with
      | false => rfl
      | true =>
        rw [List.isEmpty_iff] at h
        rw [h] at hmemf
        cases hmemf
    refine ⟨(tbl.filter (fun x => x.userKey == r.userKey)).map Record.extractSession, ?_, ?_⟩
    · simp [FetchByUserKey, find, hne]
    · exact List.mem_map_of_mem _ hmemf

/-- Witness for C10: the record expiring at instant 5 is still fully
visible to both reads at now = 100. -/
theorem expiredVisible_witness :
    FetchByID [recExp] recExp.id = (recExp.extractSession, true, none) ∧
    ∃ ss, (FetchByUserKey [recExp] recExp.userKey).1 = some ss ∧
      recExp.extractSession ∈ ss :=
  expiredVisible [recExp] recExp 100 (by decide) (by decide)

end Boltstore
